import Mathlib

/-!
Verification of the MotionLab animation composables against their
natural-language specification.

The development shallowly embeds the TypeScript sources:

* `utils/motion/config.ts` — the motion configuration table and the
  `getDuration` / `getEasing` / `getDelay` helpers.  JavaScript numbers are
  modelled as rationals (`ℚ`), JavaScript strings as Lean `String` (or, for
  the registry's character-level search, as `List Char`).  A JavaScript
  property read on an object with a missing key evaluates to `undefined`
  without raising: we model the value side as `Option` (with `none` for
  `undefined`) and the exception channel as `Except MotionError`, so a
  function that can never throw always returns `Except.ok`.
* `composables/useMotionConfig.ts` — `getAdjustedDuration` and the
  per-invocation `prefersReducedMotion` ref.
* `composables/animations/useGsapContext.ts` — the scoped GSAP context
  (`revert`, `add`), modelled as explicit state passing with an effect log.
* `useMagneticEffect`, `useScrollReveal`, `useHeroAnimation` — the three
  effect composables, modelled at the level of the registrations and
  animation actions they produce.
* `composables/lab/useComponentRegistry.ts` — the component registry and
  its `search` operation.
-/

/-! ## Motion configuration table (`utils/motion/config.ts`) -/

/-- Error channel for the config accessor.  The specification speaks of an
`UnknownTierError`; the source never constructs any error, so this type only
serves to state what the accessor would have to return if it failed. -/
inductive MotionError where
  | unknownTier (msg : String)
deriving DecidableEq

/-- Runtime semantics of the JavaScript property read
`motionConfig.durations[key]`: the configured rational for the five known
keys, `undefined` (`none`) for any other string.  Values from the source:
instant 0, fast 0.2, normal 0.4, slow 0.6, verySlow 1. -/
def durationsObj (key : String) : Option ℚ :=
  if key = "instant" then some 0
  else if key = "fast" then some 0.2
  else if key = "normal" then some 0.4
  else if key = "slow" then some 0.6
  else if key = "verySlow" then some 1
  else none

/-- Runtime semantics of `motionConfig.easings[key]`. -/
def easingsObj (key : String) : Option String :=
  if key = "linear" then some "none"
  else if key = "smooth" then some "power2.out"
  else if key = "smoothIn" then some "power2.in"
  else if key = "smoothInOut" then some "power2.inOut"
  else if key = "elastic" then some "elastic.out(1, 0.3)"
  else if key = "bounce" then some "bounce.out"
  else if key = "expo" then some "expo.out"
  else if key = "back" then some "back.out(1.7)"
  else none

/-- Runtime semantics of `motionConfig.delays[key]`.  Values from the
source: none 0, micro 0.05, tiny 0.1, small 0.15, medium 0.2, large 0.3. -/
def delaysObj (key : String) : Option ℚ :=
  if key = "none" then some 0
  else if key = "micro" then some 0.05
  else if key = "tiny" then some 0.1
  else if key = "small" then some 0.15
  else if key = "medium" then some 0.2
  else if key = "large" then some 0.3
  else none

/-- The enumerated duration tier names. -/
def durationKeys : List String := ["instant", "fast", "normal", "slow", "verySlow"]

/-- The enumerated easing tier names. -/
def easingKeys : List String :=
  ["linear", "smooth", "smoothIn", "smoothInOut", "elastic", "bounce", "expo", "back"]

/-- The enumerated delay tier names. -/
def delayKeys : List String := ["none", "micro", "tiny", "small", "medium", "large"]

/-- Embedding of `getDuration` from `utils/motion/config.ts`:
`return motionConfig.durations[key]`.  The body is a plain property read,
so on the exception channel it always succeeds. -/
def getDuration (key : String) : Except MotionError (Option ℚ) :=
  Except.ok (durationsObj key)

/-- Embedding of `getEasing`: `return motionConfig.easings[key]`. -/
def getEasing (key : String) : Except MotionError (Option String) :=
  Except.ok (easingsObj key)

/-- Embedding of `getDelay`: `return motionConfig.delays[key]`. -/
def getDelay (key : String) : Except MotionError (Option ℚ) :=
  Except.ok (delaysObj key)

/-! ## Typed view and `getAdjustedDuration` (`useMotionConfig.ts`) -/

/-- The TypeScript key type `keyof typeof motionConfig.durations`, which the
compiler enforces statically at every call site of the helpers. -/
inductive DurationKey where
  | instant
  | fast
  | normal
  | slow
  | verySlow
deriving DecidableEq

/-- The string each duration key denotes at runtime. -/
def DurationKey.str : DurationKey → String
  | .instant => "instant"
  | .fast => "fast"
  | .normal => "normal"
  | .slow => "slow"
  | .verySlow => "verySlow"

/-- `getDuration` restricted to statically valid keys, where the property
read always hits and yields the configured value. -/
def getDurationK : DurationKey → ℚ
  | .instant => 0
  | .fast => 0.2
  | .normal => 0.4
  | .slow => 0.6
  | .verySlow => 1

/-- Embedding of `getAdjustedDuration` from `useMotionConfig.ts`:
`return prefersReducedMotion.value ? getDuration(key) / 10 : getDuration(key)`.
The current value of the `prefersReducedMotion` ref is passed explicitly. -/
def getAdjustedDuration (prefersReducedMotionValue : Bool) (key : DurationKey) : ℚ :=
  if prefersReducedMotionValue then getDurationK key / 10 else getDurationK key

/-! ## Per-invocation reduced-motion state (`useMotionConfig.ts`)

Each call of `useMotionConfig()` executes
`const prefersReducedMotion = ref(false)` followed (on the client) by
`prefersReducedMotion.value = mediaQuery.matches` and
`mediaQuery.addEventListener('change', e => prefersReducedMotion.value = e.matches)`.
We model the client process as a world holding the platform's current
"prefers reduced motion" signal, the list of flag cells created so far (one
per accessor invocation, in creation order), and the number of change
listeners registered so far. -/

/-- Client process state for the reduced-motion flag. -/
structure MotionWorld where
  platform : Bool
  instances : List Bool
  listeners : Nat
deriving DecidableEq

/-- Process start: the platform signal has its initial value, no accessor
has been invoked yet. -/
def MotionWorld.init (initialMatches : Bool) : MotionWorld :=
  { platform := initialMatches, instances := [], listeners := 0 }

/-- Events affecting the reduced-motion state: an invocation of
`useMotionConfig()`, or a platform media-query change. -/
inductive MotionEv where
  | invokeUseMotionConfig
  | mediaChange (value : Bool)

/-- One event step.  An invocation creates a fresh ref, initializes it from
`mediaQuery.matches`, and registers one more change listener.  A media
change fires every registered listener; each listener sets its own ref to
`e.matches`. -/
def motionStep (w : MotionWorld) (e : MotionEv) : MotionWorld :=
  match e with
  | .invokeUseMotionConfig =>
      { platform := w.platform
        instances := w.instances ++ [w.platform]
        listeners := w.listeners + 1 }
  | .mediaChange b =>
      { platform := b
        instances := w.instances.map (fun _ => b)
        listeners := w.listeners }

/-- Run a sequence of events from a world. -/
def motionRun (w : MotionWorld) (evs : List MotionEv) : MotionWorld :=
  evs.foldl motionStep w

/-! ## Scoped GSAP context (`useGsapContext.ts`)

`useGsapContext` keeps `let ctx: Context | null = null` and
`const isReady = ref(false)`.  We model the closure state as the optional
context (carrying the list of registered animation actions) plus the ready
flag, and each operation returns the new state together with the list of
observable effects it performed. -/

/-- Observable effects of the context operations. -/
inductive GsapEff where
  | ctxRevert
  | onRevertCb
  | warnNotInitialized
  | ctxAdd (animation : Nat)
deriving DecidableEq

/-- Closure state of one `useGsapContext` instance. -/
structure GsapHandle where
  ctx : Option (List Nat)
  isReady : Bool
deriving DecidableEq

/-- Embedding of `init()`: creates the GSAP context holding whatever the
setup callback registered, and sets `isReady` to true. -/
def GsapHandle.initCtx (setupAnims : List Nat) : GsapHandle :=
  { ctx := some setupAnims, isReady := true }

/-- Embedding of `revert()`:
`if (ctx) { ctx.revert(); ctx = null; isReady.value = false; options.onRevert?.() }`.
The boolean `onRevert` records whether an `onRevert` option was supplied. -/
def revert (onRevert : Bool) (s : GsapHandle) : GsapHandle × List GsapEff :=
  match s.ctx with
  | some _ =>
      ({ ctx := none, isReady := false },
        GsapEff.ctxRevert :: (if onRevert then [GsapEff.onRevertCb] else []))
  | none => (s, [])

/-- Embedding of `add(animation)`:
`if (ctx) { ctx.add(() => animation(gsap)) } else { console.warn(...) }`. -/
def add (animation : Nat) (s : GsapHandle) : GsapHandle × List GsapEff :=
  match s.ctx with
  | some registered =>
      ({ ctx := some (registered ++ [animation]), isReady := s.isReady },
        [GsapEff.ctxAdd animation])
  | none => (s, [GsapEff.warnNotInitialized])

/-! ## Magnetic hover effect (`useMagneticEffect.ts`) -/

/-- The bounding client rect of the target element. -/
structure DomRect where
  left : ℚ
  top : ℚ
  width : ℚ
  height : ℚ
deriving DecidableEq

/-- Result of `calculateOffset`.  The source computes
`distance = Math.sqrt(deltaX ** 2 + deltaY ** 2)` and later compares
`distance > radius`; we store the squared distance `distSq` and compare it
against `radius ^ 2`, which is equivalent for the nonnegative radii the
effect is configured with (lemma `sqrt_gt_iff_sq_gt` below). -/
structure OffsetResult where
  x : ℚ
  y : ℚ
  distSq : ℚ
deriving DecidableEq

/-- Embedding of `calculateOffset(element, mouseX, mouseY)`. -/
def calculateOffset (strength : ℚ) (rect : DomRect) (mouseX mouseY : ℚ) : OffsetResult :=
  let centerX := rect.left + rect.width / 2
  let centerY := rect.top + rect.height / 2
  let deltaX := mouseX - centerX
  let deltaY := mouseY - centerY
  { x := deltaX * strength, y := deltaY * strength, distSq := deltaX ^ 2 + deltaY ^ 2 }

/-- The GSAP call issued by the mouse handlers: nothing (missing target),
or `gsap.to(element, { x, y, ... })`. -/
inductive MoveAction where
  | skip
  | animateTo (x y : ℚ)
deriving DecidableEq

/-- Embedding of `handleMouseMove(e)`.  With a missing target it returns
early.  Otherwise, if the cursor is farther than `radius` from the center
it falls through to `handleMouseLeave` (animate back to the zero offset,
deactivate); inside the radius it activates and animates toward the
computed offset.  The pair returned is the GSAP action and the new value of
`isActive`. -/
def handleMouseMove (strength radius : ℚ) (target : Option DomRect)
    (mouseX mouseY : ℚ) (isActive : Bool) : MoveAction × Bool :=
  match target with
  | none => (MoveAction.skip, isActive)
  | some rect =>
      let off := calculateOffset strength rect mouseX mouseY
      if off.distSq > radius ^ 2 then (MoveAction.animateTo 0 0, false)
      else (MoveAction.animateTo off.x off.y, true)

/-- DOM listeners registered by the magnetic effect. -/
inductive ListenerKind where
  | mousemove
  | mouseleave
deriving DecidableEq

/-- Embedding of `enable()` from `useMagneticEffect`: with a missing target
(`if (!element) return`) no listener is registered; otherwise the two mouse
listeners are attached to the element.  The `Except` channel records that
the body can never throw.  Elements are identified by numbers. -/
def magneticEnable (target : Option Nat) : Except String (List (Nat × ListenerKind)) :=
  match target with
  | none => Except.ok []
  | some el => Except.ok [(el, ListenerKind.mousemove), (el, ListenerKind.mouseleave)]

/-! ## Scroll reveal (`useScrollReveal.ts`) -/

/-- Runtime value of `targets.value`: a single element, an array of
elements, or null. -/
inductive TargetsValue where
  | single (el : Nat)
  | many (els : List Nat)
  | nullRef

/-- Embedding of
`const elements = Array.isArray(targets.value) ? targets.value : [targets.value]`:
a non-array value is wrapped in a one-element array, so a null ref becomes
`[null]`. -/
def scrollRevealElements (t : TargetsValue) : List (Option Nat) :=
  match t with
  | .single el => [some el]
  | .many els => els.map some
  | .nullRef => [none]

/-- The ScrollTrigger registration produced by the setup callback: the
trigger element and the animated elements. -/
structure ScrollRevealReg where
  trigger : Nat
  animated : List (Option Nat)
deriving DecidableEq

/-- Embedding of the `useScrollReveal` setup callback:
`if (!elements.length || !elements[0]) return` skips registration, else
`gsap.from(elements, { scrollTrigger: { trigger: elements[0], ... }, ... })`
registers one scroll-triggered tween.  `Except.ok` records that the body
never throws; `none` is the silent skip. -/
def scrollRevealSetup (t : TargetsValue) : Except String (Option ScrollRevealReg) :=
  let elements := scrollRevealElements t
  match elements.head? with
  | none => Except.ok none
  | some none => Except.ok none
  | some (some first) => Except.ok (some { trigger := first, animated := elements })

/-- Visibility crossings a ScrollTrigger can report.  The setup callback
installs a handler only for `onEnter`. -/
inductive VisibilityEv where
  | enter
  | leave
  | enterBack
  | leaveBack
deriving DecidableEq

/-- Initial value of the `isTriggered` ref: `ref(false)`. -/
def isTriggeredInit : Bool := false

/-- Effect of one visibility crossing on `isTriggered` under the default
configuration: the `onEnter` handler sets it to true; no handler is
installed for any other crossing, so the flag is unchanged. -/
def scrollRevealFlagStep (isTriggered : Bool) (e : VisibilityEv) : Bool :=
  match e with
  | .enter => true
  | .leave => isTriggered
  | .enterBack => isTriggered
  | .leaveBack => isTriggered

/-- The value of `isTriggered` after a sequence of visibility crossings. -/
def scrollRevealFlagRun (isTriggered : Bool) (evs : List VisibilityEv) : Bool :=
  evs.foldl scrollRevealFlagStep isTriggered

/-! ## Hero entrance (`useHeroAnimation.ts`)

The setup callback builds a timeline and calls `tl.from(title.value, ...)`,
`.from(subtitle.value, ...)`, `.from(button.value, ...)` without null
checks.  GSAP resolves a tween's targets with `toArray`, which maps a null
target to the empty array: the tween is created but animates no element,
and no exception is raised (at most a null-target warning, which the GSAP
plugin enables only in dev).  We model the timeline by the list of elements
that actually receive an animation. -/

/-- Elements animated by one `tl.from(target, ...)` call: none for a null
target, the element itself otherwise. -/
def gsapFromTarget (target : Option Nat) : List Nat :=
  match target with
  | none => []
  | some el => [el]

/-- Embedding of the `useHeroAnimation` setup callback: the elements
animated by the three timeline segments, in order.  `Except.ok` records
that the body never throws. -/
def heroSetup (title subtitle button : Option Nat) : Except String (List Nat) :=
  Except.ok (gsapFromTarget title ++ gsapFromTarget subtitle ++ gsapFromTarget button)

/-! ## Component registry (`useComponentRegistry.ts`)

JavaScript strings are modelled at the character level as `List Char`, with
`String.prototype.toLowerCase()` as a character-wise `Char.toLower` and
`String.prototype.includes` as the executable substring test
`containsSub`. -/

/-- Character-wise lower-casing, modelling `toLowerCase()`. -/
def toLowerStr (s : List Char) : List Char := s.map Char.toLower

/-- Does `s` start with `sub`? -/
def startsWithSub : List Char → List Char → Bool
  | _, [] => true
  | [], _ :: _ => false
  | c :: s, d :: sub => (c == d) && startsWithSub s sub

/-- Executable substring test, modelling `s.includes(sub)`. -/
def containsSub : List Char → List Char → Bool
  | [], sub => startsWithSub [] sub
  | c :: s, sub => startsWithSub (c :: s) sub || containsSub s sub

/-- Mathematical substring relation, written out from first principles:
`sub` occurs contiguously inside `s`. -/
def isSubstringOf (sub s : List Char) : Prop :=
  ∃ pre post, s = pre ++ sub ++ post

/-- Registry entry, from the `ComponentMeta` interface in `types/lab.ts`.
The dynamic-import loader field `component` is a closure irrelevant to the
query operations and is not modelled. -/
structure ComponentMeta where
  id : List Char
  name : List Char
  category : List Char
  description : List Char
  tags : List (List Char)
  complexity : List Char

/-- The fixed registry from the source.  Every entry in the source file is
commented out, so the list is empty. -/
def COMPONENT_REGISTRY : List ComponentMeta := []

/-- The body of `search`, parameterized by the scanned list:
lower-case the query, keep the entries whose lowered name, lowered
description, or some lowered tag contains it. -/
def searchList (reg : List ComponentMeta) (query : List Char) : List ComponentMeta :=
  let lowerQuery := toLowerStr query
  reg.filter (fun c =>
    containsSub (toLowerStr c.name) lowerQuery ||
    containsSub (toLowerStr c.description) lowerQuery ||
    c.tags.any (fun tag => containsSub (toLowerStr tag) lowerQuery))

/-- Embedding of `search(query)` over the fixed registry. -/
def search (query : List Char) : List ComponentMeta :=
  searchList COMPONENT_REGISTRY query

/-- The specification's matching notion: the query occurs as a
case-insensitive substring of the name, the description, or some tag. -/
def matchesQuery (query : List Char) (c : ComponentMeta) : Prop :=
  isSubstringOf (toLowerStr query) (toLowerStr c.name) ∨
  isSubstringOf (toLowerStr query) (toLowerStr c.description) ∨
  ∃ tag ∈ c.tags, isSubstringOf (toLowerStr query) (toLowerStr tag)

/-- The example entry shown in the comment block of the source registry
(`magnetic-button`), used as a concrete input for evaluating the query
operations. -/
def demoMeta : ComponentMeta :=
  { id := "magnetic-button".data
    name := "Magnetic Button".data
    category := "buttons".data
    description := "Button that follows cursor with magnetic effect based on distance".data
    tags := ["hover".data, "mouse".data, "interactive".data]
    complexity := "intermediate".data }

/-! ## Helper lemmas -/

/-- Coherence of the typed view with the runtime property read. -/
theorem durationsObj_str (k : DurationKey) : durationsObj k.str = some (getDurationK k) := by
  cases k <;> rfl

/-- Characterization of the executable test for starting with a word. -/
theorem startsWithSub_iff (sub : List Char) :
    ∀ s, startsWithSub s sub = true ↔ ∃ t, s = sub ++ t := by
  induction sub with
  | nil =>
    intro s
    simp [startsWithSub]
  | cons d sub ih =>
    intro s
    cases s with
    | nil => simp [startsWithSub]
    | cons c s =>
      simp only [startsWithSub, Bool.and_eq_true, beq_iff_eq, ih, List.cons_append,
        List.cons.injEq]
      constructor
      · rintro ⟨hcd, t, ht⟩
        exact ⟨t, hcd, ht⟩
      · rintro ⟨t, hcd, ht⟩
        exact ⟨hcd, t, ht⟩

/-- The executable substring test agrees with the mathematical substring
relation: `s.includes(sub)` holds exactly when `sub` occurs in `s`. -/
theorem containsSub_iff : ∀ s sub : List Char, containsSub s sub = true ↔ isSubstringOf sub s := by
  intro s
  induction s with
  | nil =>
    intro sub
    simp only [containsSub, startsWithSub_iff, isSubstringOf]
    constructor
    · rintro ⟨t, ht⟩
      obtain ⟨hsub, -⟩ := List.append_eq_nil.mp ht.symm
      exact ⟨[], [], by simp [hsub]⟩
    · rintro ⟨pre, post, h⟩
      have h1 := List.append_eq_nil.mp h.symm
      have h2 := List.append_eq_nil.mp h1.1
      exact ⟨[], by simp [h2.2]⟩
  | cons c s ih =>
    intro sub
    simp only [containsSub, Bool.or_eq_true, startsWithSub_iff, ih, isSubstringOf]
    constructor
    · rintro (⟨t, ht⟩ | ⟨pre, post, h⟩)
      · exact ⟨[], t, by simp [ht]⟩
      · exact ⟨c :: pre, post, by simp [h]⟩
    · rintro ⟨pre, post, h⟩
      cases pre with
      | nil => exact Or.inl ⟨post, by simpa using h⟩
      | cons a pre =>
        simp only [List.cons_append, List.cons.injEq] at h
        exact Or.inr ⟨pre, post, h.2⟩

/-- Every string contains the empty substring (`s.includes("")` is true). -/
theorem containsSub_nil (s : List Char) : containsSub s [] = true := by
  cases s <;> simp [containsSub, startsWithSub]

/-- Comparing the Euclidean distance with a nonnegative radius is the same
as comparing the squared distance with the squared radius; this justifies
carrying `distSq` in `calculateOffset` in place of the source's
`Math.sqrt` distance. -/
theorem dist_gt_radius_iff (strength radius mouseX mouseY : ℚ) (rect : DomRect)
    (hr : 0 ≤ radius) :
    (radius : ℝ) < Real.sqrt ((calculateOffset strength rect mouseX mouseY).distSq : ℝ) ↔
      radius ^ 2 < (calculateOffset strength rect mouseX mouseY).distSq := by
  rw [Real.lt_sqrt (by exact_mod_cast hr)]
  norm_cast

/-- Once true, the `isTriggered` flag survives any sequence of visibility
crossings under the default configuration. -/
theorem scrollRevealFlagRun_true (evs : List VisibilityEv) :
    scrollRevealFlagRun true evs = true := by
  induction evs with
  | nil => rfl
  | cons e evs ih =>
    cases e <;> simpa [scrollRevealFlagRun, scrollRevealFlagStep] using ih

/-- One event step preserves agreement of every flag instance with the
platform signal. -/
theorem motionStep_agrees (w : MotionWorld) (e : MotionEv)
    (hw : ∀ v ∈ w.instances, v = w.platform) :
    ∀ v ∈ (motionStep w e).instances, v = (motionStep w e).platform := by
  cases e with
  | invokeUseMotionConfig =>
    intro v hv
    simp only [motionStep, List.mem_append, List.mem_singleton] at hv ⊢
    rcases hv with hv | hv
    · exact hw v hv
    · exact hv
  | mediaChange b =>
    intro v hv
    simp only [motionStep, List.mem_map] at hv ⊢
    obtain ⟨u, -, rfl⟩ := hv
    rfl

/-- Agreement of every flag instance with the platform signal is an
invariant of arbitrary event sequences. -/
theorem motionRun_agrees :
    ∀ (evs : List MotionEv) (w : MotionWorld),
      (∀ v ∈ w.instances, v = w.platform) →
      ∀ v ∈ (motionRun w evs).instances, v = (motionRun w evs).platform := by
  intro evs
  induction evs with
  | nil =>
    intro w hw
    simpa [motionRun] using hw
  | cons e evs ih =>
    intro w hw
    simpa [motionRun] using ih (motionStep w e) (motionStep_agrees w e hw)


/-! ## Claim theorems -/

/-- Claim C1 (counterexample): contrary to the specification, passing a
tier name outside the enumerated set to `getDuration`, `getEasing` or
`getDelay` does not fail with an `UnknownTierError`: at the concrete input
"bogus" each helper returns successfully, with the JavaScript value
`undefined` (the property read on a missing key), and no error of any kind
is produced. -/
theorem unknown_tier_no_error_counterexample :
    "bogus" ∉ durationKeys ∧ "bogus" ∉ easingKeys ∧ "bogus" ∉ delayKeys ∧
    getDuration "bogus" = Except.ok none ∧
    getEasing "bogus" = Except.ok none ∧
    getDelay "bogus" = Except.ok none ∧
    (getDuration "bogus").isOk = true ∧
    (getEasing "bogus").isOk = true ∧
    (getDelay "bogus").isOk = true := by
  refine ⟨?_, ?_, ?_, rfl, rfl, rfl, rfl, rfl, rfl⟩ <;> decide

/-- Claim C1 (amended): for every tier name outside the fixed enumerated
set, `getDuration`, `getEasing` and `getDelay` return `undefined` without
raising any error (the unknown-tier case is excluded only statically by the
TypeScript key types; no `UnknownTierError` exists in the code), and for
every tier name inside the set they return the configured value without
error. -/
theorem tier_lookup_spec :
    (∀ key : String, key ∉ durationKeys → getDuration key = Except.ok none) ∧
    (∀ key : String, key ∉ easingKeys → getEasing key = Except.ok none) ∧
    (∀ key : String, key ∉ delayKeys → getDelay key = Except.ok none) ∧
    getDuration "instant" = Except.ok (some 0) ∧
    getDuration "fast" = Except.ok (some 0.2) ∧
    getDuration "normal" = Except.ok (some 0.4) ∧
    getDuration "slow" = Except.ok (some 0.6) ∧
    getDuration "verySlow" = Except.ok (some 1) ∧
    getEasing "linear" = Except.ok (some "none") ∧
    getEasing "smooth" = Except.ok (some "power2.out") ∧
    getEasing "smoothIn" = Except.ok (some "power2.in") ∧
    getEasing "smoothInOut" = Except.ok (some "power2.inOut") ∧
    getEasing "elastic" = Except.ok (some "elastic.out(1, 0.3)") ∧
    getEasing "bounce" = Except.ok (some "bounce.out") ∧
    getEasing "expo" = Except.ok (some "expo.out") ∧
    getEasing "back" = Except.ok (some "back.out(1.7)") ∧
    getDelay "none" = Except.ok (some 0) ∧
    getDelay "micro" = Except.ok (some 0.05) ∧
    getDelay "tiny" = Except.ok (some 0.1) ∧
    getDelay "small" = Except.ok (some 0.15) ∧
    getDelay "medium" = Except.ok (some 0.2) ∧
    getDelay "large" = Except.ok (some 0.3) := by
  refine ⟨?_, ?_, ?_, rfl, rfl, rfl, rfl, rfl, rfl, rfl, rfl, rfl, rfl, rfl, rfl, rfl,
    rfl, rfl, rfl, rfl, rfl, rfl⟩
  · intro key h
    simp only [durationKeys, List.mem_cons, List.not_mem_nil, or_false, not_or] at h
    obtain ⟨h1, h2, h3, h4, h5⟩ := h
    simp [getDuration, durationsObj, h1, h2, h3, h4, h5]
  · intro key h
    simp only [easingKeys, List.mem_cons, List.not_mem_nil, or_false, not_or] at h
    obtain ⟨h1, h2, h3, h4, h5, h6, h7, h8⟩ := h
    simp [getEasing, easingsObj, h1, h2, h3, h4, h5, h6, h7, h8]
  · intro key h
    simp only [delayKeys, List.mem_cons, List.not_mem_nil, or_false, not_or] at h
    obtain ⟨h1, h2, h3, h4, h5, h6⟩ := h
    simp [getDelay, delaysObj, h1, h2, h3, h4, h5, h6]

/-- Witness for the amended claim C1 at the concrete out-of-set tier name
"zzz". -/
theorem tier_lookup_spec_witness :
    "zzz" ∉ durationKeys ∧ getDuration "zzz" = Except.ok none :=
  ⟨by decide, tier_lookup_spec.1 "zzz" (by decide)⟩

/-- Claim C4: for every tier in the duration enumeration,
`getAdjustedDuration(tier)` equals `getDuration(tier) / 10` exactly when
the reduced-motion flag is true, and equals `getDuration(tier)` unchanged
when the flag is false. -/
theorem getAdjustedDuration_spec :
    ∀ k : DurationKey,
      getDuration k.str = Except.ok (some (getDurationK k)) ∧
      getAdjustedDuration true k = getDurationK k / 10 ∧
      getAdjustedDuration false k = getDurationK k := by
  intro k
  refine ⟨?_, rfl, rfl⟩
  simp [getDuration, durationsObj_str]

/-- Claim C5: `revert()` is idempotent.  For every context state, running
`revert` a second time right after a first run leaves the state exactly as
the first run left it and performs no observable effect at all — in
particular the underlying GSAP context is not reverted again and the
completion callback is not re-invoked. -/
theorem revert_idempotent :
    ∀ (onRevert : Bool) (s : GsapHandle),
      revert onRevert (revert onRevert s).1 = ((revert onRevert s).1, ([] : List GsapEff)) := by
  intro onRevert s
  cases h : s.ctx <;> simp [revert, h]

/-- Claim C6: calling `add` after `revert` never throws and never registers
a live animation: for every context state and every animation, `add` on the
reverted state returns the state unchanged and its only observable effect
is the logged warning. -/
theorem add_after_revert_noop :
    ∀ (onRevert : Bool) (s : GsapHandle) (animation : Nat),
      add animation (revert onRevert s).1 =
        ((revert onRevert s).1, [GsapEff.warnNotInitialized]) := by
  intro onRevert s animation
  cases h : s.ctx <;> simp [revert, add, h]

/-- Claim C2: each of the three effect composables, invoked with a missing
target reference, skips animation registration silently and never throws:
the magnetic effect's `enable` attaches no listener, the scroll-reveal
setup registers no ScrollTrigger (both for a null ref and for an empty
target array), and the hero timeline animates no element; in every case the
result is a success on the exception channel. -/
theorem missing_target_silent_skip :
    magneticEnable none = Except.ok [] ∧
    scrollRevealSetup TargetsValue.nullRef = Except.ok none ∧
    scrollRevealSetup (TargetsValue.many []) = Except.ok none ∧
    heroSetup none none none = Except.ok [] :=
  ⟨rfl, rfl, rfl, rfl⟩

/-- Claim C3 (counterexample): contrary to the specification, the
reduced-motion flag is not a single process-wide state updated by a single
platform change listener: at the concrete event sequence of two invocations
of `useMotionConfig()`, two independent flag cells exist and two platform
change listeners have been registered. -/
theorem reduced_motion_not_single_state_counterexample :
    (motionRun (MotionWorld.init false)
      [MotionEv.invokeUseMotionConfig, MotionEv.invokeUseMotionConfig]).listeners = 2 ∧
    (motionRun (MotionWorld.init false)
      [MotionEv.invokeUseMotionConfig, MotionEv.invokeUseMotionConfig]).instances.length = 2 :=
  ⟨rfl, rfl⟩

/-- Claim C3 (amended): the reduced-motion flag is per-accessor-instance
state: each invocation of `useMotionConfig()` creates its own flag cell,
initialized from the platform preference at that moment, and registers its
own platform change listener.  Because every cell is initialized from and
then kept in sync with the same platform signal, after any client event
sequence every flag cell equals the current platform signal, so any two
accessor instances always agree on the flag value. -/
theorem prefersReducedMotion_instances_agree :
    ∀ (initialMatches : Bool) (evs : List MotionEv) (v₁ v₂ : Bool),
      v₁ ∈ (motionRun (MotionWorld.init initialMatches) evs).instances →
      v₂ ∈ (motionRun (MotionWorld.init initialMatches) evs).instances →
      v₁ = (motionRun (MotionWorld.init initialMatches) evs).platform ∧ v₁ = v₂ := by
  intro initialMatches evs v₁ v₂ h1 h2
  have hinv := motionRun_agrees evs (MotionWorld.init initialMatches)
    (by intro v hv; simp [MotionWorld.init] at hv)
  exact ⟨hinv v₁ h1, (hinv v₁ h1).trans (hinv v₂ h2).symm⟩

/-- Witness for the amended claim C3 at a concrete event sequence: invoke,
platform change to true, invoke again; the first instance's value is a
member of the instance list and equals the platform signal. -/
theorem prefersReducedMotion_instances_agree_witness :
    true ∈ (motionRun (MotionWorld.init false)
      [MotionEv.invokeUseMotionConfig, MotionEv.mediaChange true,
        MotionEv.invokeUseMotionConfig]).instances ∧
    true = (motionRun (MotionWorld.init false)
      [MotionEv.invokeUseMotionConfig, MotionEv.mediaChange true,
        MotionEv.invokeUseMotionConfig]).platform ∧ (true : Bool) = true :=
  ⟨by decide,
    prefersReducedMotion_instances_agree false
      [MotionEv.invokeUseMotionConfig, MotionEv.mediaChange true,
        MotionEv.invokeUseMotionConfig] true true (by decide) (by decide)⟩

/-- Claim C7: for every pointer position whose distance from the target's
center is at most the configured radius, the mouse-move handler animates
the target to the offset `(pointer − center) × strength`; for every pointer
position at distance greater than the radius it instead animates the target
back to the zero offset (the comparison is phrased on squared distances,
which lemma `dist_gt_radius_iff` shows equivalent to the source's
`Math.sqrt` comparison for nonnegative radii). -/
theorem magnetic_offset_spec :
    ∀ (strength radius mouseX mouseY : ℚ) (rect : DomRect) (isActive : Bool),
      ((calculateOffset strength rect mouseX mouseY).distSq ≤ radius ^ 2 →
        handleMouseMove strength radius (some rect) mouseX mouseY isActive =
          (MoveAction.animateTo ((mouseX - (rect.left + rect.width / 2)) * strength)
            ((mouseY - (rect.top + rect.height / 2)) * strength), true)) ∧
      (radius ^ 2 < (calculateOffset strength rect mouseX mouseY).distSq →
        handleMouseMove strength radius (some rect) mouseX mouseY isActive =
          (MoveAction.animateTo 0 0, false)) := by
  intro strength radius mouseX mouseY rect isActive
  constructor
  · intro h
    simp only [handleMouseMove, gt_iff_lt, not_lt.mpr h, if_false]
    simp [calculateOffset]
  · intro h
    simp only [handleMouseMove, gt_iff_lt, if_pos]
    simp [calculateOffset] at h ⊢
    exact h

/-- Witness for claim C7 at the specification's concrete input: center
(0,0) (a 100×100 rect at (−50,−50)), strength 0.3, pointer (100, 0): the
squared distance 10000 does not exceed the squared default radius 100², and
the handler animates the target to the offset (30, 0). -/
theorem magnetic_offset_spec_witness :
    (calculateOffset 0.3 ⟨-50, -50, 100, 100⟩ 100 0).distSq ≤ 100 ^ 2 ∧
    handleMouseMove 0.3 100 (some ⟨-50, -50, 100, 100⟩) 100 0 false =
      (MoveAction.animateTo 30 0, true) := by
  refine ⟨by norm_num [calculateOffset], ?_⟩
  rw [(magnetic_offset_spec 0.3 100 100 0 ⟨-50, -50, 100, 100⟩ false).1
    (by norm_num [calculateOffset])]
  norm_num

/-- Claim C8: the scroll reveal's `isTriggered` flag is one-way under the
default configuration: it starts false, any crossing sequence containing an
enter crossing leaves it true, and once true it stays true through every
further visibility crossing. -/
theorem isTriggered_one_way :
    isTriggeredInit = false ∧
    (∀ pre post : List VisibilityEv,
      scrollRevealFlagRun isTriggeredInit (pre ++ VisibilityEv.enter :: post) = true) ∧
    (∀ evs : List VisibilityEv, scrollRevealFlagRun true evs = true) := by
  refine ⟨rfl, ?_, scrollRevealFlagRun_true⟩
  intro pre post
  rw [scrollRevealFlagRun, List.foldl_append, List.foldl_cons]
  exact scrollRevealFlagRun_true post

/-- Claim C9: for every query string, `search` returns exactly the entries
whose name, description, or some tag contains the query as a
case-insensitive substring; when nothing matches, the result is the empty
collection, not an error.  The characterization is proved for the search
body over an arbitrary entry list and instantiated at the fixed registry. -/
theorem search_spec :
    (∀ (reg : List ComponentMeta) (query : List Char) (c : ComponentMeta),
      c ∈ searchList reg query ↔ c ∈ reg ∧ matchesQuery query c) ∧
    (∀ (reg : List ComponentMeta) (query : List Char),
      (∀ c ∈ reg, ¬ matchesQuery query c) → searchList reg query = []) ∧
    (∀ (query : List Char) (c : ComponentMeta),
      c ∈ search query ↔ c ∈ COMPONENT_REGISTRY ∧ matchesQuery query c) := by
  have hmem : ∀ (reg : List ComponentMeta) (query : List Char) (c : ComponentMeta),
      c ∈ searchList reg query ↔ c ∈ reg ∧ matchesQuery query c := by
    intro reg query c
    simp only [searchList, List.mem_filter, Bool.or_eq_true, List.any_eq_true,
      containsSub_iff, matchesQuery, or_assoc]
  refine ⟨hmem, ?_, fun query c => hmem COMPONENT_REGISTRY query c⟩
  intro reg query h
  rw [List.eq_nil_iff_forall_not_mem]
  intro c hc
  obtain ⟨hcr, hcm⟩ := (hmem reg query c).1 hc
  exact h c hcr hcm

/-- Witness for claim C9 at a concrete input: the example registry entry
does not match the query "zzz", and searching a one-entry list with that
query returns the empty collection. -/
theorem search_spec_witness :
    (∀ c ∈ [demoMeta], ¬ matchesQuery "zzz".data c) ∧
    searchList [demoMeta] "zzz".data = [] := by
  have h : ∀ c ∈ [demoMeta], ¬ matchesQuery "zzz".data c := by
    intro c hc
    simp only [List.mem_singleton] at hc
    subst hc
    simp only [matchesQuery, ← containsSub_iff]
    decide
  exact ⟨h, search_spec.2.1 [demoMeta] "zzz".data h⟩

/-- Claim C10: searching with the empty string as query returns every entry
of the scanned list, since every lowered field contains the empty
substring; in particular `search("")` returns the whole fixed registry. -/
theorem search_empty_query_returns_all :
    (∀ reg : List ComponentMeta, searchList reg [] = reg) ∧
    search [] = COMPONENT_REGISTRY := by
  have hall : ∀ reg : List ComponentMeta, searchList reg [] = reg := by
    intro reg
    rw [searchList]
    rw [List.filter_eq_self]
    intro c hc
    simp [toLowerStr, containsSub_nil]
  exact ⟨hall, hall COMPONENT_REGISTRY⟩
